import Mathlib

/-!
# Verification of the GDScript codec generator (baproto)

A shallow embedding of the code-generation core of the `baproto` GDScript
backend:

* the descriptor data model (`WireFormat`, `Transform`, `NativeType`,
  `Encoding`, `Variant`) as used by the generator (types of the `baproto`
  schema library, reconstructed from the spec's data model section and from
  every construction site in the generator sources);
* the target-language AST (`Expr`, `Literal`, `Assignment`, `Item`, `Block`,
  `If`, `ForIn`, `Match`, `FnDef`) from `src/gdscript/ast/`;
* the wire-encoding resolver (`get_write_method` / `get_read_method`) from
  `src/gdscript/codec/wire.rs`;
* the encode/decode statement generators from `src/gdscript/codec/encode.rs`
  and `src/gdscript/codec/decode.rs`;
* the discriminated-union codec from `src/gdscript/codec/enumeration.rs`;
* the pretty-printer entry points needed for `Block` rendering, from
  `src/gdscript/ast/function.rs` (with the underlying `baproto::CodeWriter`
  modelled from the spec, as its source is not part of the generator tree).

Theorems at the end of the file settle the behavioural claims about these
components.
-/

namespace Baproto

/-! ## Descriptor data model (baproto schema library)

These types live in the external `baproto` schema crate.  Their shapes are
reconstructed from the spec's data model ("`wire` (one of: fixed-width *bit
count*, or *length-prefixed* with a prefix width), `native` (...), `transforms`
(...), and an optional padding-bits hint") and from the struct literals used
throughout `src/gdscript/codec/*` (e.g. `Encoding { wire, native, transforms,
padding_bits }`, `WireFormat::Bits { count }`,
`WireFormat::LengthPrefixed { prefix_bits }`). -/

/-- `WireFormat`: fixed bit-width or length-prefixed wire representation. -/
inductive WireFormat where
  | bits (count : Nat)
  | lengthPrefixed (prefix_bits : Nat)

/-- `Transform`: value-level transforms; currently only zig-zag. -/
inductive Transform where
  | zigZag

/-- `Descriptor` for a message/enum type reference.  Only `path` is consumed
by the generator (`descriptor.path.join("_")`). -/
structure Descriptor where
  package : List String
  path : List String

mutual
/-- `NativeType`: the logical value shape of a field. -/
inductive NativeType where
  | bool
  | int (bits : Nat) (signed : Bool)
  | float (bits : Nat)
  | string
  | bytes
  | array (element : Encoding)
  | map (key : Encoding) (value : Encoding)
  | message (descriptor : Descriptor)
  | enum (descriptor : Descriptor)
/-- `Encoding`: immutable descriptor of a field's wire representation. -/
inductive Encoding where
  | mk (wire : WireFormat) (native : NativeType) (transforms : List Transform)
      (padding_bits : Option Nat)
end

/-- Field projection `Encoding.wire`. -/
def Encoding.wire : Encoding → WireFormat
  | .mk w _ _ _ => w

/-- Field projection `Encoding.native`. -/
def Encoding.native : Encoding → NativeType
  | .mk _ n _ _ => n

/-- Field projection `Encoding.transforms`. -/
def Encoding.transforms : Encoding → List Transform
  | .mk _ _ t _ => t

/-- Field projection `Encoding.padding_bits`. -/
def Encoding.padding_bits : Encoding → Option Nat
  | .mk _ _ _ p => p

/-- `Field` of a field variant; the generator only consumes its `encoding`
(`field.encoding` in `src/gdscript/codec/enumeration.rs`). -/
structure Field where
  encoding : Encoding

/-- `Variant` of a discriminated union: a unit variant or a field variant
(`Variant::Unit { name, .. }` / `Variant::Field { name, field, .. }`). -/
inductive Variant where
  | unit (name : String)
  | field (name : String) (field : Field)

/-! ## Target-language AST (`src/gdscript/ast/expr.rs`) -/

/-- `Operator` represents a binary operator. -/
inductive Operator where
  | eq
  | notEq

mutual
/-- `Expr`: GDScript expression nodes.  The Rust source wraps the payload
structs `BinaryOp`, `FnCall`, `FieldAccess`, `IndexAccess`; their fields are
inlined into the corresponding constructors here. -/
inductive Expr where
  | binaryOp (left : Expr) (op : Operator) (right : Expr)
  | fnCall (receiver : Option Expr) (name : String) (args : List Expr)
  | fieldAccess (receiver : Expr) (field : String)
  | identifier (name : String)
  | indexAccess (receiver : Expr) (index : Expr)
  | literal (lit : Literal)
/-- `Literal` represents a type-safe GDScript literal value.  The `Float`
payload (an `f32` in the source) is carried as its decimal rendering, since
none of the generator paths construct float literals. -/
inductive Literal where
  | bool (b : Bool)
  | int (i : Int)
  | float (text : String)
  | string (s : String)
  | array (elems : List Expr)
  | dict (pairs : List (Expr × Expr))
end

/-- `Expr::ident` creates an identifier expression. -/
def Expr.ident (name : String) : Expr :=
  .identifier name

/-- `Expr::index` creates an index access expression. -/
def Expr.index (receiver index : Expr) : Expr :=
  .indexAccess receiver index

/-- `Expr::empty_array` creates an empty array literal. -/
def Expr.empty_array : Expr :=
  .literal (.array [])

/-- `Expr::empty_dict` creates an empty dict literal. -/
def Expr.empty_dict : Expr :=
  .literal (.dict [])

/-- `Expr::null` creates an expression for GDScript's `null`. -/
def Expr.null : Expr :=
  .identifier "null"

/-- `Expr::binary_op` creates a binary operation expression. -/
def Expr.binary_op (left : Expr) (op : Operator) (right : Expr) : Expr :=
  .binaryOp left op right

/-- `FnCall::method`: receiver call without arguments, as an `Expr`. -/
def FnCall.method (receiver : Expr) (name : String) : Expr :=
  .fnCall (some receiver) name []

/-- `FnCall::method_args`: receiver call with arguments, as an `Expr`. -/
def FnCall.method_args (receiver : Expr) (name : String) (args : List Expr) : Expr :=
  .fnCall (some receiver) name args

/-- `FnCall::function_args`: standalone call with arguments, as an `Expr`. -/
def FnCall.function_args (name : String) (args : List Expr) : Expr :=
  .fnCall none name args

/-! ## Wire-encoding resolver (`src/gdscript/codec/wire.rs`) -/

/-- `CodecMethod` contains the method name and extra arguments for codec
operations. -/
structure CodecMethod where
  method : String
  extra_args : List Expr

/-- Generation-time errors.  `unsupportedEncoding` embeds
`anyhow::bail!("Unsupported encoding combination: native={:?}, wire={:?}", ..)`
(`wire.rs` lines 155-159 and 300-304) as a structured error carrying the
offending native type and wire format; `expectedMessageOrEnum` embeds
`anyhow::bail!("Expected message or enum type")`. -/
inductive GenError where
  | unsupportedEncoding (native : NativeType) (wire : WireFormat)
  | expectedMessageOrEnum

/-- `get_write_method` returns the writer method name and extra arguments for
an encoding (`wire.rs` lines 23-161).  The Rust `match` on
`(&encoding.native, &encoding.wire)` with a `has_zigzag` guard on the
integer/fixed-width arm is rendered as a nested match: a failed guard falls
through to the fixed-width arms, exactly as the Rust arm order dictates. -/
def get_write_method (encoding : Encoding) : Except GenError CodecMethod :=
  let has_zigzag := encoding.transforms.any fun t => match t with | .zigZag => true
  match encoding.native, encoding.wire with
  | .bool, _ => .ok ⟨"write_bool", []⟩
  | .int bits signed, .bits count =>
    if has_zigzag then .ok ⟨"write_zigzag", [.literal (.int (count : Int))]⟩
    else
      match bits, signed, count with
      | 8, true, 8 => .ok ⟨"write_i8", []⟩
      | 8, false, 8 => .ok ⟨"write_u8", []⟩
      | 16, true, 16 => .ok ⟨"write_i16", []⟩
      | 16, false, 16 => .ok ⟨"write_u16", []⟩
      | 32, true, 32 => .ok ⟨"write_i32", []⟩
      | 32, false, 32 => .ok ⟨"write_u32", []⟩
      | 64, true, 64 => .ok ⟨"write_i64", []⟩
      | 64, false, 64 => .ok ⟨"write_u64", []⟩
      | _, _, _ => .error (.unsupportedEncoding encoding.native encoding.wire)
  | .int _ signed, .lengthPrefixed _ =>
    match signed with
    | true => .ok ⟨"write_varint_signed", []⟩
    | false => .ok ⟨"write_varint_unsigned", []⟩
  | .float bits, .bits count =>
    match bits, count with
    | 32, 32 => .ok ⟨"write_f32", []⟩
    | 64, 64 => .ok ⟨"write_f64", []⟩
    | _, _ => .error (.unsupportedEncoding encoding.native encoding.wire)
  | .string, .lengthPrefixed _ => .ok ⟨"write_string", []⟩
  | n, w => .error (.unsupportedEncoding n w)

/-- `get_read_method` returns the reader method name and extra arguments for
an encoding (`wire.rs` lines 168-306); structurally identical to
`get_write_method` with `read_*` operation names. -/
def get_read_method (encoding : Encoding) : Except GenError CodecMethod :=
  let has_zigzag := encoding.transforms.any fun t => match t with | .zigZag => true
  match encoding.native, encoding.wire with
  | .bool, _ => .ok ⟨"read_bool", []⟩
  | .int bits signed, .bits count =>
    if has_zigzag then .ok ⟨"read_zigzag", [.literal (.int (count : Int))]⟩
    else
      match bits, signed, count with
      | 8, true, 8 => .ok ⟨"read_i8", []⟩
      | 8, false, 8 => .ok ⟨"read_u8", []⟩
      | 16, true, 16 => .ok ⟨"read_i16", []⟩
      | 16, false, 16 => .ok ⟨"read_u16", []⟩
      | 32, true, 32 => .ok ⟨"read_i32", []⟩
      | 32, false, 32 => .ok ⟨"read_u32", []⟩
      | 64, true, 64 => .ok ⟨"read_i64", []⟩
      | 64, false, 64 => .ok ⟨"read_u64", []⟩
      | _, _, _ => .error (.unsupportedEncoding encoding.native encoding.wire)
  | .int _ signed, .lengthPrefixed _ =>
    match signed with
    | true => .ok ⟨"read_varint_signed", []⟩
    | false => .ok ⟨"read_varint_unsigned", []⟩
  | .float bits, .bits count =>
    match bits, count with
    | 32, 32 => .ok ⟨"read_f32", []⟩
    | 64, 64 => .ok ⟨"read_f64", []⟩
    | _, _ => .error (.unsupportedEncoding encoding.native encoding.wire)
  | .string, .lengthPrefixed _ => .ok ⟨"read_string", []⟩
  | n, w => .error (.unsupportedEncoding n w)

/-! ## Statement AST (`src/gdscript/ast/{assign,comment,control,function,item}.rs`) -/

/-- `TypeHint` for declarations. -/
inductive TypeHint where
  | infer
  | explicit (hint : String)

/-- `DeclarationKind` specifies the type of declaration. -/
inductive DeclarationKind where
  | const
  | var

/-- `ValueKind` specifies the type of assignment right-hand side.  The
`Preload` payload (a `PathBuf` in the source) is carried as its path string. -/
inductive ValueKind where
  | raw (s : String)
  | preload (path : String)
  | expr (e : Expr)

/-- `Comment` represents a comment in the code. -/
structure Comment where
  contents : List String

/-- `Assignment` represents a variable or constant declaration.  The Rust
field `variable` is named `target` here because `variable` is a Lean keyword. -/
structure Assignment where
  comment : Option Comment
  declaration : Option DeclarationKind
  target : Expr
  type_hint : Option TypeHint
  value : Option ValueKind

/-- `Assignment::reassign`: reassigns `target` to `value`
(builder defaults: no comment, no declaration keyword; `type_hint` explicitly
cleared). -/
def Assignment.reassign (target : Expr) (value : Expr) : Assignment :=
  ⟨none, none, target, none, some (.expr value)⟩

/-- `Assignment::var`: a type-inferred new variable definition. -/
def Assignment.var (name : String) (value : Expr) : Assignment :=
  ⟨none, some .var, .identifier name, some .infer, some (.expr value)⟩

mutual
/-- `Item` represents a top-level construct in GDScript code.  The codec
generator sources use both an `Item::Return(Expr)` and an
`Item::Return(Option<Expr>)` shape (two snapshots of `item.rs`); the payload
is an `Option Expr` here, with `Item::Return(Expr::null())` embedded as
`.ret (some Expr.null)` (both render as `return null`). -/
inductive Item where
  | assignment (a : Assignment)
  | expr (e : Expr)
  | fnDef (f : FnDef)
  | forIn (f : ForIn)
  | ifStmt (i : If)
  | matchStmt (m : Match)
  | ret (value : Option Expr)
/-- `Block` represents a nested block of code. -/
inductive Block where
  | mk (body : List Item)
/-- `ForIn` represents a for-in loop.  The Rust field `variable` is named
`var_name` here because `variable` is a Lean keyword. -/
inductive ForIn where
  | mk (var_name : String) (iterable : Expr) (body : Block)
/-- `If` represents an if-else conditional. -/
inductive If where
  | mk (condition : Expr) (then_body : Block) (else_body : Option Block)
/-- `Match` represents a match statement for pattern matching. -/
inductive Match where
  | mk (scrutinee : Expr) (arms : List MatchArm)
/-- `MatchArm` represents a single arm in a match statement. -/
inductive MatchArm where
  | mk (pattern : Expr) (body : Block)
/-- `FnDef` represents a function declaration. -/
inductive FnDef where
  | mk (comment : Option Comment) (name : String) (params : List Assignment)
      (type_hint : Option TypeHint) (body : Block) (return_value : Option Expr)
end

/-- Field projection `Block.body`. -/
def Block.body : Block → List Item
  | .mk b => b

/-- Field projection `MatchArm.pattern`. -/
def MatchArm.pattern : MatchArm → Expr
  | .mk p _ => p

/-- Field projection `MatchArm.body`. -/
def MatchArm.body : MatchArm → Block
  | .mk _ b => b

/-- Field projection `Match.scrutinee`. -/
def Match.scrutinee : Match → Expr
  | .mk s _ => s

/-- Field projection `Match.arms`. -/
def Match.arms : Match → List MatchArm
  | .mk _ a => a

/-! ## Decode statement generator (`src/gdscript/codec/decode.rs`) -/

/-- `gen_reader_error_check` generates an early return if reader has an error
(`decode.rs` lines 469-485): `if _reader.get_error() != OK: return
_reader.get_error()`. -/
def gen_reader_error_check : Item :=
  .ifStmt (.mk
    (Expr.binary_op (FnCall.method (Expr.ident "_reader") "get_error") .notEq
      (Expr.ident "OK"))
    (.mk [.ret (some (FnCall.method (Expr.ident "_reader") "get_error"))])
    none)

/-- `gen_decode_primitive` (`decode.rs` lines 47-55): `field = _reader.read_xxx()`
followed by the reader error check.  The Rust `?` on `get_read_method` is the
explicit `match` on the `Except` value. -/
def gen_decode_primitive (field_name : String) (encoding : Encoding) :
    Except GenError (List Item) :=
  match get_read_method encoding with
  | .error e => .error e
  | .ok method =>
    let call := FnCall.method_args (Expr.ident "_reader") method.method method.extra_args
    let assignment := Assignment.reassign (Expr.ident field_name) call
    .ok [.assignment assignment, gen_reader_error_check]

/-- `gen_decode_bytes` (`decode.rs` lines 67-77). -/
def gen_decode_bytes (field_name : String) : Except GenError (List Item) :=
  let length_call := FnCall.method (Expr.ident "_reader") "read_varint_unsigned"
  let read_call := FnCall.method_args (Expr.ident "_reader") "read_bytes" [length_call]
  let assignment := Assignment.reassign (Expr.ident field_name) read_call
  .ok [.assignment assignment, gen_reader_error_check]

/-- `gen_decode_array_message` (`decode.rs` lines 155-208): decode an array of
messages/enums by constructing a fresh instance per element. -/
def gen_decode_array_message (field_name : String) (element : Encoding) :
    Except GenError (List Item) :=
  let init := Assignment.reassign (Expr.ident field_name) Expr.empty_array
  match element.native with
  | .message descriptor | .enum descriptor =>
    let type_name := String.intercalate "_" descriptor.path
    let new_call := FnCall.method (Expr.ident type_name) "new"
    let declare_item := Assignment.var "_item" new_call
    let decode_call : Item :=
      .expr (FnCall.method_args (Expr.ident "_item") "_decode" [Expr.ident "_reader"])
    let error_check := gen_reader_error_check
    let append_call : Item :=
      .expr (FnCall.method_args (Expr.ident field_name) "append" [Expr.ident "_item"])
    let length_call := FnCall.method (Expr.ident "_reader") "read_varint_unsigned"
    let range_call := FnCall.function_args "range" [length_call]
    let for_loop : Item := .forIn (.mk "_i" range_call
      (.mk [.assignment declare_item, decode_call, error_check, append_call]))
    .ok [.assignment init, for_loop]
  | _ => .error .expectedMessageOrEnum

/-- `gen_decode_message` (`decode.rs` lines 221-243). -/
def gen_decode_message (field_name : String) (descriptor : Descriptor) :
    Except GenError (List Item) :=
  let type_name := String.intercalate "_" descriptor.path
  let new_call := FnCall.method (Expr.ident type_name) "new"
  let assignment := Assignment.reassign (Expr.ident field_name) new_call
  let decode_call : Item :=
    .expr (FnCall.method_args (Expr.ident field_name) "_decode" [Expr.ident "_reader"])
  let error_check := gen_reader_error_check
  .ok [.assignment assignment, decode_call, error_check]

/-- `gen_decode_enum` (`decode.rs` lines 256-278); identical statement shape
to `gen_decode_message`. -/
def gen_decode_enum (field_name : String) (descriptor : Descriptor) :
    Except GenError (List Item) :=
  let type_name := String.intercalate "_" descriptor.path
  let new_call := FnCall.method (Expr.ident type_name) "new"
  let assignment := Assignment.reassign (Expr.ident field_name) new_call
  let decode_call : Item :=
    .expr (FnCall.method_args (Expr.ident field_name) "_decode" [Expr.ident "_reader"])
  let error_check := gen_reader_error_check
  .ok [.assignment assignment, decode_call, error_check]

/-- `gen_decode_map_primitive` (`decode.rs` lines 310-365). -/
def gen_decode_map_primitive (field_name : String) (key value : Encoding) :
    Except GenError (List Item) :=
  let init := Assignment.reassign (Expr.ident field_name) Expr.empty_dict
  match get_read_method key with
  | .error e => .error e
  | .ok key_method =>
    let key_read :=
      FnCall.method_args (Expr.ident "_reader") key_method.method key_method.extra_args
    let declare_key := Assignment.var "_key" key_read
    let key_error_check := gen_reader_error_check
    match get_read_method value with
    | .error e => .error e
    | .ok value_method =>
      let value_read :=
        FnCall.method_args (Expr.ident "_reader") value_method.method value_method.extra_args
      let map_index := Expr.index (Expr.ident field_name) (Expr.ident "_key")
      let assign_value := Assignment.reassign map_index value_read
      let value_error_check := gen_reader_error_check
      let loop_body := [Item.assignment declare_key, key_error_check,
        Item.assignment assign_value, value_error_check]
      let length_call := FnCall.method (Expr.ident "_reader") "read_varint_unsigned"
      let range_call := FnCall.function_args "range" [length_call]
      let for_loop : Item := .forIn (.mk "_i" range_call (.mk loop_body))
      .ok [.assignment init, for_loop]

/-- `gen_decode_map_message` (`decode.rs` lines 385-456). -/
def gen_decode_map_message (field_name : String) (key value : Encoding) :
    Except GenError (List Item) :=
  let init := Assignment.reassign (Expr.ident field_name) Expr.empty_dict
  match get_read_method key with
  | .error e => .error e
  | .ok key_method =>
    let key_read :=
      FnCall.method_args (Expr.ident "_reader") key_method.method key_method.extra_args
    let declare_key := Assignment.var "_key" key_read
    let key_error_check := gen_reader_error_check
    match value.native with
    | .message descriptor | .enum descriptor =>
      let type_name := String.intercalate "_" descriptor.path
      let new_call := FnCall.method (Expr.ident type_name) "new"
      let declare_value := Assignment.var "_value" new_call
      let decode_call : Item :=
        .expr (FnCall.method_args (Expr.ident "_value") "_decode" [Expr.ident "_reader"])
      let decode_error_check := gen_reader_error_check
      let map_index := Expr.index (Expr.ident field_name) (Expr.ident "_key")
      let assign_to_map := Assignment.reassign map_index (Expr.ident "_value")
      let loop_body := [Item.assignment declare_key, key_error_check,
        Item.assignment declare_value, decode_call, decode_error_check,
        Item.assignment assign_to_map]
      let length_call := FnCall.method (Expr.ident "_reader") "read_varint_unsigned"
      let range_call := FnCall.function_args "range" [length_call]
      let for_loop : Item := .forIn (.mk "_i" range_call (.mk loop_body))
      .ok [.assignment init, for_loop]
    | _ => .error .expectedMessageOrEnum

/-- `gen_decode_map` (`decode.rs` lines 283-293): dispatch on the value's
native type. -/
def gen_decode_map (field_name : String) (key value : Encoding) :
    Except GenError (List Item) :=
  match value.native with
  | .message _ | .enum _ => gen_decode_map_message field_name key value
  | _ => gen_decode_map_primitive field_name key value

mutual
/-- `gen_decode_stmts` generates decode statements for a field
(`decode.rs` lines 12-35): exhaustive dispatch on `encoding.native`. -/
def gen_decode_stmts (field_name : String) (encoding : Encoding) :
    Except GenError (List Item) :=
  match encoding with
  | .mk _ .bool _ _ | .mk _ (.int _ _) _ _ | .mk _ (.float _) _ _ | .mk _ .string _ _ =>
    gen_decode_primitive field_name encoding
  | .mk _ .bytes _ _ => gen_decode_bytes field_name
  | .mk _ (.array element) _ _ => gen_decode_array field_name element
  | .mk _ (.map key value) _ _ => gen_decode_map field_name key value
  | .mk _ (.message descriptor) _ _ => gen_decode_message field_name descriptor
  | .mk _ (.enum descriptor) _ _ => gen_decode_enum field_name descriptor
termination_by 3 * sizeOf encoding
decreasing_by all_goals (simp_wf; omega)

/-- `gen_decode_array` (`decode.rs` lines 82-92): dispatch on the element's
native type. -/
def gen_decode_array (field_name : String) (element : Encoding) :
    Except GenError (List Item) :=
  match element with
  | .mk _ (.message _) _ _ | .mk _ (.enum _) _ _ =>
    gen_decode_array_message field_name element
  | e => gen_decode_array_primitive field_name e
termination_by 3 * sizeOf element + 2
decreasing_by all_goals simp_wf

/-- `gen_decode_array_primitive` (`decode.rs` lines 106-139): decode elements
via the recursive generator into `_temp`, then append. -/
def gen_decode_array_primitive (field_name : String) (element : Encoding) :
    Except GenError (List Item) :=
  let init := Assignment.reassign (Expr.ident field_name) Expr.empty_array
  match gen_decode_stmts "_temp" element with
  | .error e => .error e
  | .ok element_stmts =>
    let append_call : Item :=
      .expr (FnCall.method_args (Expr.ident field_name) "append" [Expr.ident "_temp"])
    let loop_body := element_stmts ++ [append_call]
    let length_call := FnCall.method (Expr.ident "_reader") "read_varint_unsigned"
    let range_call := FnCall.function_args "range" [length_call]
    let for_loop : Item := .forIn (.mk "_i" range_call (.mk loop_body))
    .ok [.assignment init, for_loop]
termination_by 3 * sizeOf element + 1
decreasing_by all_goals simp_wf
end

/-! ## Encode statement generator (`src/gdscript/codec/encode.rs`) -/

/-- `gen_null_check` generates an early return if the field is null
(`encode.rs` lines 377-395): `if field == null: _writer.set_error(ERR_INVALID_DATA);
return null`. -/
def gen_null_check (field_name : String) : Item :=
  .ifStmt (.mk
    (Expr.binary_op (Expr.ident field_name) .eq Expr.null)
    (.mk [.expr (FnCall.method_args (Expr.ident "_writer") "set_error"
        [Expr.ident "ERR_INVALID_DATA"]),
      .ret (some Expr.null)])
    none)

/-- `gen_encode_primitive` (`encode.rs` lines 45-54):
`_writer.write_xxx(field, extra_args...)`. -/
def gen_encode_primitive (field_name : String) (encoding : Encoding) :
    Except GenError (List Item) :=
  match get_write_method encoding with
  | .error e => .error e
  | .ok method =>
    let args := Expr.ident field_name :: method.extra_args
    let call := FnCall.method_args (Expr.ident "_writer") method.method args
    .ok [.expr call]

/-- `gen_encode_bytes` (`encode.rs` lines 65-82). -/
def gen_encode_bytes (field_name : String) : Except GenError (List Item) :=
  let size_call := FnCall.method (Expr.ident field_name) "size"
  let write_length :=
    FnCall.method_args (Expr.ident "_writer") "write_varint_unsigned" [size_call]
  let write_bytes :=
    FnCall.method_args (Expr.ident "_writer") "write_bytes" [Expr.ident field_name]
  .ok [.expr write_length, .expr write_bytes]

/-- `gen_encode_array_message` (`encode.rs` lines 147-177): write the count,
then loop with a null guard and delegation per element (the element encoding
parameter is unused in the source, `_element`). -/
def gen_encode_array_message (field_name : String) (_element : Encoding) :
    Except GenError (List Item) :=
  let size_call := FnCall.method (Expr.ident field_name) "size"
  let write_length :=
    FnCall.method_args (Expr.ident "_writer") "write_varint_unsigned" [size_call]
  let null_check := gen_null_check "_item"
  let encode_call : Item :=
    .expr (FnCall.method_args (Expr.ident "_item") "_encode" [Expr.ident "_writer"])
  let for_loop : Item :=
    .forIn (.mk "_item" (Expr.ident field_name) (.mk [null_check, encode_call]))
  .ok [.expr write_length, for_loop]

/-- `gen_encode_message` (`encode.rs` lines 190-202): null guard followed by
delegation to the referenced value's own `_encode`. -/
def gen_encode_message (field_name : String) : Except GenError (List Item) :=
  let null_check := gen_null_check field_name
  let encode_call : Item :=
    .expr (FnCall.method_args (Expr.ident field_name) "_encode" [Expr.ident "_writer"])
  .ok [null_check, encode_call]

/-- `gen_encode_enum` (`encode.rs` lines 215-227); identical statement shape
to `gen_encode_message`. -/
def gen_encode_enum (field_name : String) : Except GenError (List Item) :=
  let null_check := gen_null_check field_name
  let encode_call : Item :=
    .expr (FnCall.method_args (Expr.ident field_name) "_encode" [Expr.ident "_writer"])
  .ok [null_check, encode_call]

mutual
/-- `gen_encode_stmts` generates encode statements for a field
(`encode.rs` lines 12-35): exhaustive dispatch on `encoding.native`. -/
def gen_encode_stmts (field_name : String) (encoding : Encoding) :
    Except GenError (List Item) :=
  match encoding with
  | .mk _ .bool _ _ | .mk _ (.int _ _) _ _ | .mk _ (.float _) _ _ | .mk _ .string _ _ =>
    gen_encode_primitive field_name encoding
  | .mk _ .bytes _ _ => gen_encode_bytes field_name
  | .mk _ (.array element) _ _ => gen_encode_array field_name element
  | .mk _ (.map key value) _ _ => gen_encode_map field_name key value
  | .mk _ (.message _) _ _ => gen_encode_message field_name
  | .mk _ (.enum _) _ _ => gen_encode_enum field_name
termination_by 3 * sizeOf encoding
decreasing_by all_goals (simp_wf; omega)

/-- `gen_encode_array` (`encode.rs` lines 87-97): dispatch on the element's
native type. -/
def gen_encode_array (field_name : String) (element : Encoding) :
    Except GenError (List Item) :=
  match element with
  | .mk _ (.message _) _ _ | .mk _ (.enum _) _ _ =>
    gen_encode_array_message field_name element
  | e => gen_encode_array_primitive field_name e
termination_by 3 * sizeOf element + 2
decreasing_by all_goals simp_wf

/-- `gen_encode_array_primitive` (`encode.rs` lines 109-132): write the count,
then a for-each loop whose body encodes `_item` recursively. -/
def gen_encode_array_primitive (field_name : String) (element : Encoding) :
    Except GenError (List Item) :=
  let size_call := FnCall.method (Expr.ident field_name) "size"
  let write_length :=
    FnCall.method_args (Expr.ident "_writer") "write_varint_unsigned" [size_call]
  match gen_encode_stmts "_item" element with
  | .error e => .error e
  | .ok element_stmts =>
    let for_loop : Item :=
      .forIn (.mk "_item" (Expr.ident field_name) (.mk element_stmts))
    .ok [.expr write_length, for_loop]
termination_by 3 * sizeOf element + 1
decreasing_by all_goals simp_wf

/-- `gen_encode_map` (`encode.rs` lines 232-242): dispatch on the value's
native type. -/
def gen_encode_map (field_name : String) (key value : Encoding) :
    Except GenError (List Item) :=
  match value with
  | .mk _ (.message _) _ _ | .mk _ (.enum _) _ _ =>
    gen_encode_map_message field_name key value
  | v => gen_encode_map_primitive field_name key v
termination_by 3 * (sizeOf key + sizeOf value) + 2
decreasing_by all_goals (simp_wf; try omega)

/-- `gen_encode_map_primitive` (`encode.rs` lines 255-299): write the count,
then loop over keys encoding the key recursively and writing the value via an
inline map index. -/
def gen_encode_map_primitive (field_name : String) (key value : Encoding) :
    Except GenError (List Item) :=
  let size_call := FnCall.method (Expr.ident field_name) "size"
  let write_length :=
    FnCall.method_args (Expr.ident "_writer") "write_varint_unsigned" [size_call]
  match gen_encode_stmts "_key" key with
  | .error e => .error e
  | .ok key_stmts =>
    match get_write_method value with
    | .error e => .error e
    | .ok value_method =>
      let value_access := Expr.index (Expr.ident field_name) (Expr.ident "_key")
      let value_args := value_access :: value_method.extra_args
      let value_write : Item :=
        .expr (FnCall.method_args (Expr.ident "_writer") value_method.method value_args)
      let loop_body := key_stmts ++ [value_write]
      let for_loop : Item :=
        .forIn (.mk "_key" (Expr.ident field_name) (.mk loop_body))
      .ok [.expr write_length, for_loop]
termination_by 3 * (sizeOf key + sizeOf value) + 1
decreasing_by all_goals (simp_wf; omega)

/-- `gen_encode_map_message` (`encode.rs` lines 316-362): write the count,
then loop over keys encoding the key recursively, binding the value locally,
null-guarding it and delegating (the value encoding parameter is unused in
the source beyond dispatch, `_value`). -/
def gen_encode_map_message (field_name : String) (key _value : Encoding) :
    Except GenError (List Item) :=
  let size_call := FnCall.method (Expr.ident field_name) "size"
  let write_length :=
    FnCall.method_args (Expr.ident "_writer") "write_varint_unsigned" [size_call]
  match gen_encode_stmts "_key" key with
  | .error e => .error e
  | .ok key_stmts =>
    let value_access := Expr.index (Expr.ident field_name) (Expr.ident "_key")
    let declare_value := Assignment.var "_value" value_access
    let null_check := gen_null_check "_value"
    let encode_call : Item :=
      .expr (FnCall.method_args (Expr.ident "_value") "_encode" [Expr.ident "_writer"])
    let loop_body := key_stmts ++ [.assignment declare_value, null_check, encode_call]
    let for_loop : Item :=
      .forIn (.mk "_key" (Expr.ident field_name) (.mk loop_body))
    .ok [.expr write_length, for_loop]
termination_by 3 * sizeOf key + 1
decreasing_by all_goals (simp_wf; try omega)
end

/-! ## Discriminated-union codec (`src/gdscript/codec/enumeration.rs`) -/

/-- Modelled from the spec: Rust's standard-library `str::replace`
(`method.method.replace("write", "read")` in `enumeration.rs` line 177, used
to map a resolved write operation name to the matching read operation of the
same named family).  Scans the character list left to right; at an occurrence
of `pat` it emits `rep` and continues after the occurrence (the `Nat` counter
skips the remainder of a matched occurrence, keeping the recursion
structural). -/
def replace_chars (pat rep : List Char) : List Char → Nat → List Char
  | [], _ => []
  | _ :: rest, Nat.succ k => replace_chars pat rep rest k
  | c :: rest, 0 =>
    if pat ≠ [] ∧ pat.isPrefixOf (c :: rest) then
      rep ++ replace_chars pat rep rest (pat.length - 1)
    else
      c :: replace_chars pat rep rest 0

/-- Modelled from the spec: `s.replace(pat, rep)` on strings, via
`replace_chars`. -/
def rust_str_replace (s pat rep : String) : String :=
  ⟨replace_chars pat.data rep.data s.data 0⟩

/-- The `for variant in variants` loop of `gen_enum_encode_stmts`
(`enumeration.rs` lines 62-86), building one match arm per variant in
declaration order: unit variants get an empty body (`Block::default()`),
field variants write `_value` with the resolved write method.  A resolution
failure (`?`) aborts the whole generation. -/
def enum_encode_arms : List Variant → Except GenError (List MatchArm)
  | [] => .ok []
  | .unit name :: rest =>
    match enum_encode_arms rest with
    | .error e => .error e
    | .ok arms => .ok (MatchArm.mk (Expr.ident name) (.mk []) :: arms)
  | .field name fld :: rest =>
    match get_write_method fld.encoding with
    | .error e => .error e
    | .ok method =>
      let args := Expr.ident "_value" :: method.extra_args
      let write_value := FnCall.method_args (Expr.ident "_writer") method.method args
      match enum_encode_arms rest with
      | .error e => .error e
      | .ok arms =>
        .ok (MatchArm.mk (Expr.ident name) (.mk [.expr write_value]) :: arms)

/-- `gen_enum_encode_stmts` generates encoding statements for an enum
(`enumeration.rs` lines 27-97): a NONE-sentinel guard, the signed-varint
discriminant write, and (when the variant list is non-empty) a match over the
discriminant with one arm per variant. -/
def gen_enum_encode_stmts (variants : List Variant) : Except GenError (List Item) :=
  let none_check : Item := .ifStmt (.mk
    (Expr.binary_op (Expr.ident "_discriminant") .eq (Expr.ident "NONE"))
    (.mk [.expr (FnCall.method_args (Expr.ident "_writer") "set_error"
        [Expr.ident "ERR_INVALID_DATA"]),
      .ret (some Expr.null)])
    none)
  let write_discriminant : Item :=
    .expr (FnCall.method_args (Expr.ident "_writer") "write_varint_signed"
      [Expr.ident "_discriminant"])
  if variants.isEmpty then
    .ok [none_check, write_discriminant]
  else
    match enum_encode_arms variants with
    | .error e => .error e
    | .ok match_arms =>
      let match_stmt : Item := .matchStmt (.mk (Expr.ident "_discriminant") match_arms)
      .ok [none_check, write_discriminant, match_stmt]

/-- The `for variant in variants` loop of `gen_enum_decode_stmts`
(`enumeration.rs` lines 165-206), building one match arm per variant in
declaration order: unit variants set `_value` to null, field variants read
`_value` with the write method's name rewritten `write` → `read` (the source's
`method.method.replace("write", "read")`) followed by an error check.  The
source builds the read call with `FnCall::method` when the argument list is
empty and `FnCall::method_args` otherwise; both produce the same node. -/
def enum_decode_arms : List Variant → Except GenError (List MatchArm)
  | [] => .ok []
  | .unit name :: rest =>
    match enum_decode_arms rest with
    | .error e => .error e
    | .ok arms =>
      .ok (MatchArm.mk (Expr.ident name)
        (.mk [.assignment (Assignment.reassign (Expr.ident "_value") Expr.null)]) :: arms)
  | .field name fld :: rest =>
    match get_write_method fld.encoding with
    | .error e => .error e
    | .ok method =>
      let read_method := rust_str_replace method.method "write" "read"
      let read_args := method.extra_args
      let read_call :=
        if read_args.isEmpty then FnCall.method (Expr.ident "_reader") read_method
        else FnCall.method_args (Expr.ident "_reader") read_method read_args
      let assign_value := Assignment.reassign (Expr.ident "_value") read_call
      let error_check : Item := .ifStmt (.mk
        (Expr.binary_op (FnCall.method (Expr.ident "_reader") "get_error") .notEq
          (Expr.ident "OK"))
        (.mk [.ret (some (FnCall.method (Expr.ident "_reader") "get_error"))])
        none)
      match enum_decode_arms rest with
      | .error e => .error e
      | .ok arms =>
        .ok (MatchArm.mk (Expr.ident name)
          (.mk [.assignment assign_value, error_check]) :: arms)

/-- `gen_enum_decode_stmts` generates decoding statements for an enum
(`enumeration.rs` lines 122-222): read the discriminant as a signed varint,
check for a read error, match on the discriminant (NONE arm first, then one
arm per variant), and finally return the reader's error state. -/
def gen_enum_decode_stmts (variants : List Variant) : Except GenError (List Item) :=
  let read_discriminant : Item := .assignment (Assignment.reassign
    (Expr.ident "_discriminant")
    (FnCall.method (Expr.ident "_reader") "read_varint_signed"))
  let error_check : Item := .ifStmt (.mk
    (Expr.binary_op (FnCall.method (Expr.ident "_reader") "get_error") .notEq
      (Expr.ident "OK"))
    (.mk [.ret (some (FnCall.method (Expr.ident "_reader") "get_error"))])
    none)
  let none_arm : MatchArm := .mk (Expr.ident "NONE")
    (.mk [.expr (FnCall.method_args (Expr.ident "_reader") "set_error"
        [Expr.ident "ERR_INVALID_DATA"]),
      .ret (some (FnCall.method (Expr.ident "_reader") "get_error"))])
  match enum_decode_arms variants with
  | .error e => .error e
  | .ok variant_arms =>
    let match_stmt : Item :=
      .matchStmt (.mk (Expr.ident "_discriminant") (none_arm :: variant_arms))
    let final_return : Item :=
      .ret (some (FnCall.method (Expr.ident "_reader") "get_error"))
    .ok [read_discriminant, error_check, match_stmt, final_return]

/-! ## Pretty-printer (`src/gdscript/ast/*` `Emit` impls)

The underlying `baproto::CodeWriter` is not part of the generator tree; it is
modelled from the spec's pretty-printer contract: "a single non-negative
indent-depth counter, incremented/decremented in matched push/pop pairs",
"Indentation is emitted as one indent unit per current depth before each
physical line".  The GDScript writer is configured with the tab indent token,
the `\n` newline token and the `##` comment token
(`GDScript::writer` in `src/gdscript/mod.rs`).  Output is accumulated in a
single string; `write` appends raw text, `newline` appends the newline token,
and `writeln` emits one full physical line (indentation, text, newline). -/

/-- Modelled from the spec: `baproto::CodeWriter` state — an indent-depth
counter plus the accumulated output text. -/
structure CodeWriter where
  indent_level : Nat
  out : String

/-- Modelled from the spec: `CodeWriter::get_indent` — one indent unit (tab)
per current depth. -/
def CodeWriter.get_indent (cw : CodeWriter) : String :=
  ⟨List.replicate cw.indent_level '\t'⟩

/-- Modelled from the spec: `CodeWriter::write` appends raw text. -/
def CodeWriter.write (cw : CodeWriter) (s : String) : CodeWriter :=
  { cw with out := cw.out ++ s }

/-- Modelled from the spec: `CodeWriter::newline` appends the newline token. -/
def CodeWriter.newline (cw : CodeWriter) : CodeWriter :=
  { cw with out := cw.out ++ "\n" }

/-- Modelled from the spec: `CodeWriter::writeln` emits one full physical
line at the current depth. -/
def CodeWriter.writeln (cw : CodeWriter) (s : String) : CodeWriter :=
  { cw with out := cw.out ++ cw.get_indent ++ s ++ "\n" }

/-- Modelled from the spec: `CodeWriter::indent` pushes one depth level. -/
def CodeWriter.indent (cw : CodeWriter) : CodeWriter :=
  { cw with indent_level := cw.indent_level + 1 }

/-- Modelled from the spec: `CodeWriter::outdent` pops one depth level. -/
def CodeWriter.outdent (cw : CodeWriter) : CodeWriter :=
  { cw with indent_level := cw.indent_level - 1 }

/-- Modelled from the spec: `CodeWriter::comment_block` writes each line of
the text as a `##` comment line. -/
def CodeWriter.comment_block (cw : CodeWriter) (text : String) : CodeWriter :=
  (text.splitOn "\n").foldl (fun cw line => cw.writeln ("## " ++ line)) cw

/-- `Operator::emit` (`expr.rs`). -/
def Operator.emit (op : Operator) (cw : CodeWriter) : CodeWriter :=
  match op with
  | .eq => cw.write "=="
  | .notEq => cw.write "!="

mutual
/-- `Expr::emit` and the `Emit` impls of its payload structs (`expr.rs`).
Expression emission never fails in the source (modulo sink errors), so it is
a pure state transformer here. -/
def Expr.emit (e : Expr) (cw : CodeWriter) : CodeWriter :=
  match e with
  | .binaryOp left op right =>
    Expr.emit right ((Operator.emit op ((Expr.emit left cw).write " ")).write " ")
  | .fnCall receiver name args =>
    let cw :=
      match receiver with
      | some r => (Expr.emit r cw).write "."
      | none => cw
    let cw := cw.write (name ++ "(")
    let cw := Expr.emit_args args true cw
    cw.write ")"
  | .fieldAccess receiver field => (Expr.emit receiver cw).write ("." ++ field)
  | .identifier name => cw.write name
  | .indexAccess receiver index =>
    ((Expr.emit index ((Expr.emit receiver cw).write "[")).write "]")
  | .literal lit => Literal.emit lit cw

/-- Argument list emission of `FnCall::emit` (`expr.rs`): `", "` before every
argument except the first. -/
def Expr.emit_args (args : List Expr) (is_first : Bool) (cw : CodeWriter) : CodeWriter :=
  match args with
  | [] => cw
  | a :: rest =>
    let cw := if is_first then cw else cw.write ", "
    Expr.emit_args rest false (Expr.emit a cw)

/-- `Literal::emit` (`expr.rs`).  The float case writes the decimal rendering
carried by the constructor. -/
def Literal.emit (lit : Literal) (cw : CodeWriter) : CodeWriter :=
  match lit with
  | .bool b => cw.write (if b then "true" else "false")
  | .int i => cw.write (toString i)
  | .float text => cw.write text
  | .string s => cw.write ("\"" ++ s ++ "\"")
  | .array elems => (Expr.emit_args elems true (cw.write "[")).write "]"
  | .dict pairs => (Literal.emit_pairs pairs true (cw.write "\x7b")).write "\x7d"

/-- Dict entry emission of `Literal::emit` (`expr.rs`): `key: value` pairs
separated by `", "`. -/
def Literal.emit_pairs (pairs : List (Expr × Expr)) (is_first : Bool)
    (cw : CodeWriter) : CodeWriter :=
  match pairs with
  | [] => cw
  | (key, value) :: rest =>
    let cw := if is_first then cw else cw.write ", "
    let cw := Expr.emit value ((Expr.emit key cw).write ": ")
    Literal.emit_pairs rest false cw
end

/-- `Comment::emit` (`comment.rs`): render the joined contents as a comment
block. -/
def Comment.emit (c : Comment) (cw : CodeWriter) : CodeWriter :=
  cw.comment_block (String.intercalate "\n" c.contents)

/-- `emit_value` (`assign.rs` lines 167-177). -/
def emit_value (value : ValueKind) (cw : CodeWriter) : CodeWriter :=
  match value with
  | .raw s => cw.write (" " ++ s)
  | .preload p => cw.write (" preload(\"" ++ p ++ "\")")
  | .expr e => Expr.emit e (cw.write " ")

/-- `Assignment::emit` (`assign.rs` lines 181-221); the `(None, None)` and
`(Infer, None)` combinations are the source's `anyhow::bail!`. -/
def Assignment.emit (a : Assignment) (cw : CodeWriter) : Except String CodeWriter :=
  let cw :=
    match a.comment with
    | some c => Comment.emit c cw
    | none => cw
  let cw :=
    match a.declaration with
    | none => cw
    | some .const => cw.write "const "
    | some .var => cw.write "var "
  let cw := Expr.emit a.target cw
  match a.type_hint, a.value with
  | some (.explicit hint), none => .ok (cw.write (": " ++ hint))
  | none, some value => .ok (emit_value value (cw.write " ="))
  | some .infer, some value => .ok (emit_value value (cw.write " :="))
  | some (.explicit hint), some value =>
    .ok (emit_value value (cw.write (": " ++ hint ++ " =")))
  | none, none | some .infer, none =>
    .error "Assignment requires a value when using this type hint"

mutual
/-- `Item::emit` (`item.rs`). -/
def Item.emit (item : Item) (cw : CodeWriter) : Except String CodeWriter :=
  match item with
  | .expr e => .ok (Expr.emit e cw)
  | .assignment a => Assignment.emit a cw
  | .forIn f => ForIn.emit f cw
  | .ifStmt i => If.emit i cw
  | .matchStmt m => Match.emit m cw
  | .fnDef f => FnDef.emit f cw
  | .ret (some e) => .ok (Expr.emit e (cw.write "return "))
  | .ret none => .ok (cw.write "return")

/-- `Block::emit` (`function.rs` lines 109-125): push a depth level, then
either the single `pass` placeholder for an empty body or the body's items in
order, then pop the depth level (skipped on failure, as the source's `?`
returns early). -/
def Block.emit (b : Block) (cw : CodeWriter) : Except String CodeWriter :=
  match b with
  | .mk body =>
    let cw := cw.indent
    if body.isEmpty then .ok ((cw.writeln "pass").outdent)
    else
      match Block.emit_items body cw with
      | .error e => .error e
      | .ok cw => .ok cw.outdent

/-- The `for item in &self.body` loop of `Block::emit`. -/
def Block.emit_items (items : List Item) (cw : CodeWriter) : Except String CodeWriter :=
  match items with
  | [] => .ok cw
  | i :: rest =>
    match Item.emit i cw with
    | .error e => .error e
    | .ok cw => Block.emit_items rest cw

/-- `ForIn::emit` (`control.rs` lines 23-32). -/
def ForIn.emit (f : ForIn) (cw : CodeWriter) : Except String CodeWriter :=
  match f with
  | .mk var_name iterable body =>
    let cw := cw.write ("for " ++ var_name ++ " in ")
    let cw := Expr.emit iterable cw
    let cw := ((cw.write ":").newline)
    Block.emit body cw

/-- `If::emit` (`control.rs` lines 51-69). -/
def If.emit (i : If) (cw : CodeWriter) : Except String CodeWriter :=
  match i with
  | .mk condition then_body else_body =>
    let cw := cw.write "if "
    let cw := Expr.emit condition cw
    let cw := ((cw.write ":").newline)
    match Block.emit then_body cw with
    | .error e => .error e
    | .ok cw =>
      match else_body with
      | none => .ok cw
      | some eb => Block.emit eb (((cw.newline).write "else:").newline)

/-- `Match::emit` (`control.rs` lines 93-113). -/
def Match.emit (m : Match) (cw : CodeWriter) : Except String CodeWriter :=
  match m with
  | .mk scrutinee arms =>
    let cw := cw.write "match "
    let cw := Expr.emit scrutinee cw
    let cw := ((cw.write ":").newline)
    let cw := cw.indent
    match Match.emit_arms arms cw with
    | .error e => .error e
    | .ok cw => .ok cw.outdent

/-- The `for arm in &self.arms` loop of `Match::emit`. -/
def Match.emit_arms (arms : List MatchArm) (cw : CodeWriter) : Except String CodeWriter :=
  match arms with
  | [] => .ok cw
  | .mk pattern body :: rest =>
    let cw := cw.write cw.get_indent
    let cw := Expr.emit pattern cw
    let cw := ((cw.write ":").newline)
    match Block.emit body cw with
    | .error e => .error e
    | .ok cw => Match.emit_arms rest cw.newline

/-- `FnDef::emit` (`function.rs` lines 50-86). -/
def FnDef.emit (f : FnDef) (cw : CodeWriter) : Except String CodeWriter :=
  match f with
  | .mk comment name params type_hint body return_value =>
    let cw :=
      match comment with
      | some c => Comment.emit c cw
      | none => cw
    let cw := cw.write ("func " ++ name ++ "(")
    match FnDef.emit_params params cw with
    | .error e => .error e
    | .ok cw =>
      let cw := cw.write ")"
      let cw :=
        match type_hint with
        | none | some .infer => cw.writeln ":"
        | some (.explicit hint) => cw.writeln (" -> " ++ hint ++ ":")
      match Block.emit body cw with
      | .error e => .error e
      | .ok cw =>
        match return_value with
        | none => .ok cw
        | some return_expr =>
          let cw := cw.indent
          let cw := cw.write (cw.get_indent ++ "return ")
          let cw := Expr.emit return_expr cw
          .ok ((cw.outdent).newline)

/-- The parameter loop of `FnDef::emit`: `", "` after every parameter except
the last. -/
def FnDef.emit_params (params : List Assignment) (cw : CodeWriter) :
    Except String CodeWriter :=
  match params with
  | [] => .ok cw
  | p :: rest =>
    match Assignment.emit p cw with
    | .error e => .error e
    | .ok cw =>
      match rest with
      | [] => .ok cw
      | _ => FnDef.emit_params rest (cw.write ", ")
end

/-! ## Auxiliary predicates and lemmas -/

/-- The primitive native-type grouping of the generators' dispatch
(`Bool | Int | Float | String`, first arm of `gen_decode_stmts` /
`gen_encode_stmts`). -/
def NativeType.is_primitive : NativeType → Bool
  | .bool | .int _ _ | .float _ | .string => true
  | _ => false

/-- The per-variant arm shape of the enum-decode claim: unit variants assign
a null payload; field variants read the payload (with the write method's name
rewritten `write` → `read`, carrying the same extra arguments) followed by
their own error-check guard. -/
def decode_arm_spec (variant : Variant) (arm : MatchArm) : Prop :=
  match variant with
  | .unit name =>
    arm = .mk (Expr.ident name)
      (.mk [.assignment (Assignment.reassign (Expr.ident "_value") Expr.null)])
  | .field name fld =>
    ∃ m, get_write_method fld.encoding = .ok m ∧
      arm = .mk (Expr.ident name)
        (.mk [.assignment (Assignment.reassign (Expr.ident "_value")
            (.fnCall (some (Expr.ident "_reader"))
              (rust_str_replace m.method "write" "read") m.extra_args)),
          gen_reader_error_check])

/-! ## Claim theorems -/

/-- The read resolver is the write resolver with the operation name rewritten
`write` → `read` (the rewrite used by the source itself in
`enumeration.rs`); extra arguments and errors are untouched.  In the
resolver's operation table `write` occurs in each name exactly once, as its
prefix, so this rewrite is prefix replacement. -/
theorem get_read_method_eq_map (e : Encoding) :
    get_read_method e = (get_write_method e).map
      (fun m => ⟨rust_str_replace m.method "write" "read", m.extra_args⟩) := by
  obtain ⟨w, n, t, p⟩ := e
  cases n <;> cases w <;>
    simp only [get_read_method, get_write_method, Encoding.native, Encoding.wire,
      Encoding.transforms] <;>
    (try split) <;> (try split) <;> rfl

/-- The arm list built by `enum_decode_arms` has one arm per variant, in
declaration order, each of the shape described by `decode_arm_spec`. -/
theorem enum_decode_arms_spec (variants : List Variant) (arms : List MatchArm)
    (h : enum_decode_arms variants = .ok arms) :
    arms.length = variants.length ∧
      ∀ i (hv : i < variants.length) (ha : i < arms.length),
        decode_arm_spec (variants.get ⟨i, hv⟩) (arms.get ⟨i, ha⟩) := by
  induction variants generalizing arms with
  | nil =>
    injection h with h'
    subst h'
    exact ⟨rfl, fun i hv => absurd hv (Nat.not_lt_zero i)⟩
  | cons v rest ih =>
    cases v with
    | unit name =>
      simp only [enum_decode_arms] at h
      cases hrec : enum_decode_arms rest with
      | error e => rw [hrec] at h; exact Except.noConfusion h
      | ok arms' =>
        rw [hrec] at h
        injection h with h'
        subst h'
        obtain ⟨hl, hs⟩ := ih arms' hrec
        refine ⟨by simp [hl], ?_⟩
        intro i hv ha
        match i with
        | 0 => exact rfl
        | Nat.succ j =>
          exact hs j (Nat.lt_of_succ_lt_succ hv) (Nat.lt_of_succ_lt_succ ha)
    | field name fld =>
      simp only [enum_decode_arms] at h
      cases hm : get_write_method fld.encoding with
      | error e => rw [hm] at h; exact Except.noConfusion h
      | ok m =>
        rw [hm] at h
        cases hrec : enum_decode_arms rest with
        | error e => rw [hrec] at h; exact Except.noConfusion h
        | ok arms' =>
          rw [hrec] at h
          injection h with h'
          subst h'
          obtain ⟨hl, hs⟩ := ih arms' hrec
          refine ⟨by simp [hl], ?_⟩
          intro i hv ha
          match i with
          | 0 =>
            refine ⟨m, hm, ?_⟩
            simp only [List.get]
            cases hargs : m.extra_args with
            | nil =>
              simp [hargs, FnCall.method, FnCall.method_args, gen_reader_error_check]
            | cons a rest' =>
              simp [hargs, FnCall.method, FnCall.method_args, gen_reader_error_check]
          | Nat.succ j =>
            exact hs j (Nat.lt_of_succ_lt_succ hv) (Nat.lt_of_succ_lt_succ ha)

/-- `Block::emit_items` is the sequential (monadic fold) emission of the
items. -/
theorem block_emit_items_eq_foldlM (items : List Item) (cw : CodeWriter) :
    Block.emit_items items cw = List.foldlM (fun c it => Item.emit it c) cw items := by
  induction items generalizing cw with
  | nil => rfl
  | cons i rest ih =>
    simp only [Block.emit_items, List.foldlM_cons]
    cases h : Item.emit i cw with
    | error e => rfl
    | ok cw' => exact ih cw'

/-- C1 (counterexample): the claim asserts that the zig-zag transform wins
"regardless of the encoding's wire format" and takes precedence over varint
selection; but for a 32-bit signed integer under a length-prefixed wire whose
transform set contains the zig-zag transform, both resolvers return the
varint operation with no extra arguments — not the zig-zag operation. -/
theorem c1_zigzag_ignored_under_length_prefixed :
    get_write_method (.mk (.lengthPrefixed 64) (.int 32 true) [.zigZag] none) =
        .ok ⟨"write_varint_signed", []⟩ ∧
      get_read_method (.mk (.lengthPrefixed 64) (.int 32 true) [.zigZag] none) =
        .ok ⟨"read_varint_signed", []⟩ :=
  ⟨rfl, rfl⟩

/-- C1 (amended): for every integer encoding under a fixed-width (`Bits`)
wire format whose transform set contains the zig-zag transform,
`get_write_method` / `get_read_method` return the zig-zag operation
(`write_zigzag` / `read_zigzag`) carrying the declared wire bit-count as the
single extra argument, taking precedence over fixed-width matching. -/
theorem c1_zigzag_precedence_fixed_width (bits : Nat) (signed : Bool) (count : Nat)
    (transforms : List Transform) (padding : Option Nat)
    (h : Transform.zigZag ∈ transforms) :
    get_write_method (.mk (.bits count) (.int bits signed) transforms padding) =
        .ok ⟨"write_zigzag", [.literal (.int count)]⟩ ∧
      get_read_method (.mk (.bits count) (.int bits signed) transforms padding) =
        .ok ⟨"read_zigzag", [.literal (.int count)]⟩ := by
  have hz : (transforms.any fun t => match t with | .zigZag => true) = true :=
    List.any_eq_true.mpr ⟨_, h, rfl⟩
  constructor <;>
    simp [get_write_method, get_read_method, Encoding.native, Encoding.wire,
      Encoding.transforms, hz]

/-- C1 witness: the amended statement at a concrete zig-zag encoding. -/
theorem c1_zigzag_precedence_fixed_width_witness :
    Transform.zigZag ∈ [Transform.zigZag] ∧
      get_write_method (.mk (.bits 32) (.int 32 true) [.zigZag] none) =
        .ok ⟨"write_zigzag", [.literal (.int 32)]⟩ :=
  ⟨List.mem_singleton.mpr rfl,
    (c1_zigzag_precedence_fixed_width 32 true 32 [.zigZag] none
      (List.mem_singleton.mpr rfl)).1⟩

/-- C2: for every `Encoding`, `get_write_method` succeeds if and only if
`get_read_method` succeeds, and when both succeed the read method name is the
write method name with `write` replaced by `read` (its prefix, for every name
in the table) and the extra-argument lists are equal. -/
theorem c2_read_write_same_family (e : Encoding) :
    ((∃ m, get_write_method e = .ok m) ↔ (∃ m, get_read_method e = .ok m)) ∧
      (∀ mw mr, get_write_method e = .ok mw → get_read_method e = .ok mr →
        mr.method = rust_str_replace mw.method "write" "read" ∧
          mr.extra_args = mw.extra_args) := by
  have h := get_read_method_eq_map e
  constructor
  · constructor
    · rintro ⟨m, hm⟩
      exact ⟨_, by rw [h, hm]; rfl⟩
    · rintro ⟨m, hm⟩
      rw [h] at hm
      cases hw : get_write_method e with
      | ok mw => exact ⟨mw, rfl⟩
      | error err => rw [hw] at hm; simp [Except.map] at hm
  · intro mw mr hw hr
    rw [h, hw] at hr
    simp only [Except.map, Except.ok.injEq] at hr
    rw [← hr]
    exact ⟨rfl, rfl⟩

/-- C2 witness: the symmetry relation at the bool encoding. -/
theorem c2_read_write_same_family_witness :
    get_write_method (.mk (.bits 1) .bool [] none) = .ok ⟨"write_bool", []⟩ ∧
      (CodecMethod.mk "read_bool" []).method =
        rust_str_replace (CodecMethod.mk "write_bool" []).method "write" "read" ∧
      (CodecMethod.mk "read_bool" []).extra_args =
        (CodecMethod.mk "write_bool" []).extra_args :=
  ⟨rfl, (c2_read_write_same_family (.mk (.bits 1) .bool [] none)).2
    ⟨"write_bool", []⟩ ⟨"read_bool", []⟩ rfl rfl⟩

/-- C3: resolution is total and deterministic — for every `Encoding`, each
resolver returns exactly one `CodecMethod` or the explicit unsupported-encoding
error carrying the offending native type and wire format; in particular a
float under a length-prefixed wire, a string under a fixed-width wire, an
integer (without transforms) whose bit-width differs from the fixed wire bit
count, and every `Bytes`/`Array`/`Map`/`Message`/`Enum` native yield that
error. -/
theorem c3_resolution_total_with_explicit_errors :
    (∀ e : Encoding, (∃ m, get_write_method e = .ok m) ∨
        get_write_method e = .error (.unsupportedEncoding e.native e.wire)) ∧
    (∀ e : Encoding, (∃ m, get_read_method e = .ok m) ∨
        get_read_method e = .error (.unsupportedEncoding e.native e.wire)) ∧
    (∀ (fb pw : Nat) (tr : List Transform) (pad : Option Nat),
        get_write_method (.mk (.lengthPrefixed pw) (.float fb) tr pad) =
            .error (.unsupportedEncoding (.float fb) (.lengthPrefixed pw)) ∧
          get_read_method (.mk (.lengthPrefixed pw) (.float fb) tr pad) =
            .error (.unsupportedEncoding (.float fb) (.lengthPrefixed pw))) ∧
    (∀ (c : Nat) (tr : List Transform) (pad : Option Nat),
        get_write_method (.mk (.bits c) .string tr pad) =
            .error (.unsupportedEncoding .string (.bits c)) ∧
          get_read_method (.mk (.bits c) .string tr pad) =
            .error (.unsupportedEncoding .string (.bits c))) ∧
    (∀ (bits : Nat) (signed : Bool) (count : Nat) (pad : Option Nat), bits ≠ count →
        get_write_method (.mk (.bits count) (.int bits signed) [] pad) =
            .error (.unsupportedEncoding (.int bits signed) (.bits count)) ∧
          get_read_method (.mk (.bits count) (.int bits signed) [] pad) =
            .error (.unsupportedEncoding (.int bits signed) (.bits count))) ∧
    (∀ (w : WireFormat) (tr : List Transform) (pad : Option Nat),
        get_write_method (.mk w .bytes tr pad) = .error (.unsupportedEncoding .bytes w) ∧
          get_read_method (.mk w .bytes tr pad) = .error (.unsupportedEncoding .bytes w)) ∧
    (∀ (el : Encoding) (w : WireFormat) (tr : List Transform) (pad : Option Nat),
        get_write_method (.mk w (.array el) tr pad) =
            .error (.unsupportedEncoding (.array el) w) ∧
          get_read_method (.mk w (.array el) tr pad) =
            .error (.unsupportedEncoding (.array el) w)) ∧
    (∀ (k v : Encoding) (w : WireFormat) (tr : List Transform) (pad : Option Nat),
        get_write_method (.mk w (.map k v) tr pad) =
            .error (.unsupportedEncoding (.map k v) w) ∧
          get_read_method (.mk w (.map k v) tr pad) =
            .error (.unsupportedEncoding (.map k v) w)) ∧
    (∀ (d : Descriptor) (w : WireFormat) (tr : List Transform) (pad : Option Nat),
        get_write_method (.mk w (.message d) tr pad) =
            .error (.unsupportedEncoding (.message d) w) ∧
          get_read_method (.mk w (.message d) tr pad) =
            .error (.unsupportedEncoding (.message d) w)) ∧
    (∀ (d : Descriptor) (w : WireFormat) (tr : List Transform) (pad : Option Nat),
        get_write_method (.mk w (.enum d) tr pad) =
            .error (.unsupportedEncoding (.enum d) w) ∧
          get_read_method (.mk w (.enum d) tr pad) =
            .error (.unsupportedEncoding (.enum d) w)) := by
  refine ⟨?_, ?_, ?_, ?_, ?_, ?_, ?_, ?_, ?_, ?_⟩
  · intro e
    obtain ⟨w, n, t, p⟩ := e
    cases n <;> cases w <;>
      simp only [get_write_method, Encoding.native, Encoding.wire, Encoding.transforms] <;>
      (try split) <;> (try split) <;>
      first
        | exact Or.inl ⟨_, rfl⟩
        | exact Or.inr rfl
        | exact Or.inr trivial
  · intro e
    obtain ⟨w, n, t, p⟩ := e
    cases n <;> cases w <;>
      simp only [get_read_method, Encoding.native, Encoding.wire, Encoding.transforms] <;>
      (try split) <;> (try split) <;>
      first
        | exact Or.inl ⟨_, rfl⟩
        | exact Or.inr rfl
        | exact Or.inr trivial
  · intro fb pw tr pad
    exact ⟨rfl, rfl⟩
  · intro c tr pad
    exact ⟨rfl, rfl⟩
  · intro bits signed count pad hne
    constructor <;>
      simp only [get_write_method, get_read_method, Encoding.native, Encoding.wire,
        Encoding.transforms, List.any_nil, Bool.false_eq_true, if_false] <;>
      split <;> simp_all
  · intro w tr pad
    cases w <;> exact ⟨rfl, rfl⟩
  · intro el w tr pad
    cases w <;> exact ⟨rfl, rfl⟩
  · intro k v w tr pad
    cases w <;> exact ⟨rfl, rfl⟩
  · intro d w tr pad
    cases w <;> exact ⟨rfl, rfl⟩
  · intro d w tr pad
    cases w <;> exact ⟨rfl, rfl⟩

/-- C3 witness: the mismatched-width integer clause at a concrete encoding. -/
theorem c3_resolution_total_with_explicit_errors_witness :
    (8 : Nat) ≠ 16 ∧
      get_write_method (.mk (.bits 16) (.int 8 true) [] none) =
        .error (.unsupportedEncoding (.int 8 true) (.bits 16)) :=
  ⟨by decide,
    (c3_resolution_total_with_explicit_errors.2.2.2.2.1 8 true 16 none (by decide)).1⟩

/-- C4: for every field name and every primitive encoding (native `Bool`,
`Int`, `Float` or `String`) that resolves successfully, `gen_decode_stmts`
returns exactly two statements: the assignment of the resolved reader call to
the field, then the error-check guard that returns the reader's error when it
is non-OK. -/
theorem c4_primitive_decode_two_stmts (field_name : String) (e : Encoding)
    (m : CodecMethod) (hp : e.native.is_primitive = true)
    (hr : get_read_method e = .ok m) :
    gen_decode_stmts field_name e = .ok
      [.assignment (Assignment.reassign (Expr.ident field_name)
          (FnCall.method_args (Expr.ident "_reader") m.method m.extra_args)),
        .ifStmt (.mk
          (Expr.binary_op (FnCall.method (Expr.ident "_reader") "get_error") .notEq
            (Expr.ident "OK"))
          (.mk [.ret (some (FnCall.method (Expr.ident "_reader") "get_error"))])
          none)] := by
  obtain ⟨w, n, t, p⟩ := e
  cases n <;>
    simp_all [gen_decode_stmts, gen_decode_primitive, gen_reader_error_check,
      NativeType.is_primitive, Encoding.native]

/-- C4 witness: the two-statement decode sequence for a bool field. -/
theorem c4_primitive_decode_two_stmts_witness :
    ((Encoding.mk (.bits 1) .bool [] none).native.is_primitive = true ∧
        get_read_method (.mk (.bits 1) .bool [] none) = .ok ⟨"read_bool", []⟩) ∧
      gen_decode_stmts "active" (.mk (.bits 1) .bool [] none) = .ok
        [.assignment (Assignment.reassign (Expr.ident "active")
            (FnCall.method_args (Expr.ident "_reader") (CodecMethod.mk "read_bool" []).method
              (CodecMethod.mk "read_bool" []).extra_args)),
          .ifStmt (.mk
            (Expr.binary_op (FnCall.method (Expr.ident "_reader") "get_error") .notEq
              (Expr.ident "OK"))
            (.mk [.ret (some (FnCall.method (Expr.ident "_reader") "get_error"))])
            none)] :=
  ⟨⟨rfl, rfl⟩,
    c4_primitive_decode_two_stmts "active" (.mk (.bits 1) .bool [] none)
      ⟨"read_bool", []⟩ rfl rfl⟩

/-- C5: every statement sequence returned by `gen_enum_encode_stmts` begins
with the NONE-sentinel guard (whose body sets an invalid-data error on the
writer and aborts with an early return) followed by the signed-varint
discriminant write, so an unset union triggers the error-and-abort sequence
before the discriminant-write statement is ever reached. -/
theorem c5_enum_encode_none_guard_first (variants : List Variant) (stmts : List Item)
    (h : gen_enum_encode_stmts variants = .ok stmts) :
    ∃ rest, stmts =
      Item.ifStmt (.mk
          (Expr.binary_op (Expr.ident "_discriminant") .eq (Expr.ident "NONE"))
          (.mk [.expr (FnCall.method_args (Expr.ident "_writer") "set_error"
              [Expr.ident "ERR_INVALID_DATA"]),
            .ret (some Expr.null)])
          none)
        :: Item.expr (FnCall.method_args (Expr.ident "_writer") "write_varint_signed"
            [Expr.ident "_discriminant"])
        :: rest := by
  simp only [gen_enum_encode_stmts] at h
  split at h
  · exact ⟨[], by injection h with h'; exact h'.symm⟩
  · split at h
    · exact Except.noConfusion h
    · exact ⟨_, by injection h with h'; exact h'.symm⟩

/-- C5 witness: the guard-then-write prefix for the empty variant list. -/
theorem c5_enum_encode_none_guard_first_witness :
    gen_enum_encode_stmts [] = .ok
        [Item.ifStmt (.mk
            (Expr.binary_op (Expr.ident "_discriminant") .eq (Expr.ident "NONE"))
            (.mk [.expr (FnCall.method_args (Expr.ident "_writer") "set_error"
                [Expr.ident "ERR_INVALID_DATA"]),
              .ret (some Expr.null)])
            none),
          Item.expr (FnCall.method_args (Expr.ident "_writer") "write_varint_signed"
            [Expr.ident "_discriminant"])] ∧
      ∃ rest,
        [Item.ifStmt (.mk
            (Expr.binary_op (Expr.ident "_discriminant") .eq (Expr.ident "NONE"))
            (.mk [.expr (FnCall.method_args (Expr.ident "_writer") "set_error"
                [Expr.ident "ERR_INVALID_DATA"]),
              .ret (some Expr.null)])
            none),
          Item.expr (FnCall.method_args (Expr.ident "_writer") "write_varint_signed"
            [Expr.ident "_discriminant"])] =
        Item.ifStmt (.mk
            (Expr.binary_op (Expr.ident "_discriminant") .eq (Expr.ident "NONE"))
            (.mk [.expr (FnCall.method_args (Expr.ident "_writer") "set_error"
                [Expr.ident "ERR_INVALID_DATA"]),
              .ret (some Expr.null)])
            none)
          :: Item.expr (FnCall.method_args (Expr.ident "_writer") "write_varint_signed"
              [Expr.ident "_discriminant"])
          :: rest :=
  ⟨rfl, c5_enum_encode_none_guard_first [] _ rfl⟩

/-- C6: `gen_enum_decode_stmts` first reads the discriminant as a signed
varint, follows it with the error-check guard, then emits a multi-way branch
on the discriminant whose first arm matches NONE (setting an invalid-data
error and returning) followed by exactly one arm per variant in declaration
order (unit variants assign a null payload, field variants read the payload
with their own error-check guard), with no catch-all arm. -/
theorem c6_enum_decode_structure (variants : List Variant) (stmts : List Item)
    (h : gen_enum_decode_stmts variants = .ok stmts) :
    ∃ arms : List MatchArm,
      stmts = [
        .assignment (Assignment.reassign (Expr.ident "_discriminant")
          (FnCall.method (Expr.ident "_reader") "read_varint_signed")),
        .ifStmt (.mk
          (Expr.binary_op (FnCall.method (Expr.ident "_reader") "get_error") .notEq
            (Expr.ident "OK"))
          (.mk [.ret (some (FnCall.method (Expr.ident "_reader") "get_error"))])
          none),
        .matchStmt (.mk (Expr.ident "_discriminant")
          (MatchArm.mk (Expr.ident "NONE")
            (.mk [.expr (FnCall.method_args (Expr.ident "_reader") "set_error"
                [Expr.ident "ERR_INVALID_DATA"]),
              .ret (some (FnCall.method (Expr.ident "_reader") "get_error"))])
            :: arms)),
        .ret (some (FnCall.method (Expr.ident "_reader") "get_error"))] ∧
      arms.length = variants.length ∧
      ∀ i (hv : i < variants.length) (ha : i < arms.length),
        decode_arm_spec (variants.get ⟨i, hv⟩) (arms.get ⟨i, ha⟩) := by
  simp only [gen_enum_decode_stmts] at h
  cases hrec : enum_decode_arms variants with
  | error e => rw [hrec] at h; exact Except.noConfusion h
  | ok variant_arms =>
    rw [hrec] at h
    injection h with h'
    obtain ⟨hl, hs⟩ := enum_decode_arms_spec variants variant_arms hrec
    exact ⟨variant_arms, h'.symm, hl, hs⟩

/-- C6 witness: the decode structure at a concrete unit + field variant list. -/
theorem c6_enum_decode_structure_witness :
    gen_enum_decode_stmts
        [.unit "IDLE", .field "SCORE" ⟨.mk (.bits 32) (.int 32 true) [] none⟩] =
      .ok [
        .assignment (Assignment.reassign (Expr.ident "_discriminant")
          (FnCall.method (Expr.ident "_reader") "read_varint_signed")),
        .ifStmt (.mk
          (Expr.binary_op (FnCall.method (Expr.ident "_reader") "get_error") .notEq
            (Expr.ident "OK"))
          (.mk [.ret (some (FnCall.method (Expr.ident "_reader") "get_error"))])
          none),
        .matchStmt (.mk (Expr.ident "_discriminant")
          [MatchArm.mk (Expr.ident "NONE")
            (.mk [.expr (FnCall.method_args (Expr.ident "_reader") "set_error"
                [Expr.ident "ERR_INVALID_DATA"]),
              .ret (some (FnCall.method (Expr.ident "_reader") "get_error"))]),
          MatchArm.mk (Expr.ident "IDLE")
            (.mk [.assignment (Assignment.reassign (Expr.ident "_value") Expr.null)]),
          MatchArm.mk (Expr.ident "SCORE")
            (.mk [.assignment (Assignment.reassign (Expr.ident "_value")
                (.fnCall (some (Expr.ident "_reader")) "read_i32" [])),
              gen_reader_error_check])]),
        .ret (some (FnCall.method (Expr.ident "_reader") "get_error"))] ∧
      ∃ arms : List MatchArm,
        ([
          .assignment (Assignment.reassign (Expr.ident "_discriminant")
            (FnCall.method (Expr.ident "_reader") "read_varint_signed")),
          .ifStmt (.mk
            (Expr.binary_op (FnCall.method (Expr.ident "_reader") "get_error") .notEq
              (Expr.ident "OK"))
            (.mk [.ret (some (FnCall.method (Expr.ident "_reader") "get_error"))])
            none),
          .matchStmt (.mk (Expr.ident "_discriminant")
            [MatchArm.mk (Expr.ident "NONE")
              (.mk [.expr (FnCall.method_args (Expr.ident "_reader") "set_error"
                  [Expr.ident "ERR_INVALID_DATA"]),
                .ret (some (FnCall.method (Expr.ident "_reader") "get_error"))]),
            MatchArm.mk (Expr.ident "IDLE")
              (.mk [.assignment (Assignment.reassign (Expr.ident "_value") Expr.null)]),
            MatchArm.mk (Expr.ident "SCORE")
              (.mk [.assignment (Assignment.reassign (Expr.ident "_value")
                  (.fnCall (some (Expr.ident "_reader")) "read_i32" [])),
                gen_reader_error_check])]),
          .ret (some (FnCall.method (Expr.ident "_reader") "get_error"))] : List Item) = [
          .assignment (Assignment.reassign (Expr.ident "_discriminant")
            (FnCall.method (Expr.ident "_reader") "read_varint_signed")),
          .ifStmt (.mk
            (Expr.binary_op (FnCall.method (Expr.ident "_reader") "get_error") .notEq
              (Expr.ident "OK"))
            (.mk [.ret (some (FnCall.method (Expr.ident "_reader") "get_error"))])
            none),
          .matchStmt (.mk (Expr.ident "_discriminant")
            (MatchArm.mk (Expr.ident "NONE")
              (.mk [.expr (FnCall.method_args (Expr.ident "_reader") "set_error"
                  [Expr.ident "ERR_INVALID_DATA"]),
                .ret (some (FnCall.method (Expr.ident "_reader") "get_error"))])
              :: arms)),
          .ret (some (FnCall.method (Expr.ident "_reader") "get_error"))] ∧
        arms.length =
          ([.unit "IDLE", .field "SCORE" ⟨.mk (.bits 32) (.int 32 true) [] none⟩]
            : List Variant).length ∧
        ∀ i (hv : i <
            ([.unit "IDLE", .field "SCORE" ⟨.mk (.bits 32) (.int 32 true) [] none⟩]
              : List Variant).length) (ha : i < arms.length),
          decode_arm_spec
            (([.unit "IDLE", .field "SCORE" ⟨.mk (.bits 32) (.int 32 true) [] none⟩]
              : List Variant).get ⟨i, hv⟩) (arms.get ⟨i, ha⟩) :=
  ⟨rfl, c6_enum_decode_structure _ _ rfl⟩

/-- C7: for the field name `items` and an encoding whose native type is an
array of 32-bit fixed-width signed integers, the encode statements are
exactly [write the unsigned-varint count, for-each loop over `_item` writing
`write_i32`], and the decode statements are exactly [assign an empty array,
loop over the range of a read unsigned-varint count assigning `_temp` from
`read_i32`, error check, append `_temp`] — for every outer wire format, outer
transform list and padding hints. -/
theorem c7_array_i32_scenario (ow : WireFormat) (otr : List Transform)
    (op ep : Option Nat) :
    gen_encode_stmts "items"
        (.mk ow (.array (.mk (.bits 32) (.int 32 true) [] ep)) otr op) =
      .ok [.expr (FnCall.method_args (Expr.ident "_writer") "write_varint_unsigned"
          [FnCall.method (Expr.ident "items") "size"]),
        .forIn (.mk "_item" (Expr.ident "items")
          (.mk [.expr (FnCall.method_args (Expr.ident "_writer") "write_i32"
            [Expr.ident "_item"])]))] ∧
    gen_decode_stmts "items"
        (.mk ow (.array (.mk (.bits 32) (.int 32 true) [] ep)) otr op) =
      .ok [.assignment (Assignment.reassign (Expr.ident "items") Expr.empty_array),
        .forIn (.mk "_i"
          (FnCall.function_args "range"
            [FnCall.method (Expr.ident "_reader") "read_varint_unsigned"])
          (.mk [.assignment (Assignment.reassign (Expr.ident "_temp")
              (FnCall.method_args (Expr.ident "_reader") "read_i32" [])),
            gen_reader_error_check,
            .expr (FnCall.method_args (Expr.ident "items") "append"
              [Expr.ident "_temp"])]))] := by
  constructor
  · simp [gen_encode_stmts, gen_encode_array, gen_encode_array_primitive,
      gen_encode_primitive, get_write_method, Encoding.native, Encoding.wire,
      Encoding.transforms]
  · simp [gen_decode_stmts, gen_decode_array, gen_decode_array_primitive,
      gen_decode_primitive, get_read_method, Encoding.native, Encoding.wire,
      Encoding.transforms]

/-- C8: for every field name whose encoding is a direct message or enum
reference, `gen_encode_stmts` returns exactly two statements: the null guard
(set invalid-data error on the writer and return when the field equals null)
followed by the delegation call `field._encode(_writer)`. -/
theorem c8_message_enum_encode_null_guard_delegate (field_name : String)
    (d : Descriptor) (w : WireFormat) (tr : List Transform) (p : Option Nat) :
    gen_encode_stmts field_name (.mk w (.message d) tr p) =
      .ok [.ifStmt (.mk (Expr.binary_op (Expr.ident field_name) .eq Expr.null)
          (.mk [.expr (FnCall.method_args (Expr.ident "_writer") "set_error"
              [Expr.ident "ERR_INVALID_DATA"]),
            .ret (some Expr.null)]) none),
        .expr (FnCall.method_args (Expr.ident field_name) "_encode"
          [Expr.ident "_writer"])] ∧
    gen_encode_stmts field_name (.mk w (.enum d) tr p) =
      .ok [.ifStmt (.mk (Expr.binary_op (Expr.ident field_name) .eq Expr.null)
          (.mk [.expr (FnCall.method_args (Expr.ident "_writer") "set_error"
              [Expr.ident "ERR_INVALID_DATA"]),
            .ret (some Expr.null)]) none),
        .expr (FnCall.method_args (Expr.ident field_name) "_encode"
          [Expr.ident "_writer"])] := by
  constructor <;>
    simp [gen_encode_stmts, gen_encode_message, gen_encode_enum, gen_null_check]

/-- C9: rendering an empty `Block` emits exactly one `pass` placeholder line
at the block's indent depth (one level below the enclosing writer depth,
restored afterwards); rendering a non-empty `Block` emits exactly the
sequential emission of its statements at that depth, with no placeholder
added. -/
theorem c9_block_empty_pass_placeholder (cw : CodeWriter) :
    Block.emit (.mk []) cw =
      .ok ⟨cw.indent_level,
        cw.out ++ (⟨List.replicate (cw.indent_level + 1) '\t'⟩ : String) ++
          "pass" ++ "\n"⟩ ∧
    ∀ (i : Item) (items : List Item),
      Block.emit (.mk (i :: items)) cw =
        (List.foldlM (fun c it => Item.emit it c) (cw.indent) (i :: items)).map
          CodeWriter.outdent := by
  constructor
  · simp [Block.emit, CodeWriter.indent, CodeWriter.writeln, CodeWriter.outdent,
      CodeWriter.get_indent]
  · intro i items
    simp only [Block.emit, List.isEmpty_cons, if_false, Bool.false_eq_true]
    rw [← block_emit_items_eq_foldlM]
    cases h : Block.emit_items (i :: items) cw.indent with
    | error e => simp [h, Except.map]
    | ok cw' => simp [h, Except.map]

/-- C10 (counterexample): two encodings identical except for the
length-prefix width do not always produce identical resolver results — for a
32-bit float under length-prefixed wires of width 32 and 64 the resolver
fails on both, but the unsupported-encoding errors carry the differing wire
formats. -/
theorem c10_prefix_width_alters_error :
    get_write_method (.mk (.lengthPrefixed 32) (.float 32) [] none) ≠
      get_write_method (.mk (.lengthPrefixed 64) (.float 32) [] none) := by
  simp [get_write_method, Encoding.native, Encoding.wire, Encoding.transforms]

/-- C10 (amended): resolution never depends on `padding_bits` — results are
fully identical for encodings differing only there — and never depends on the
length-prefix width except through the error payload: encodings differing
only in prefix width resolve to the same `CodecMethod` when resolution
succeeds, and both fail when it fails (`Except.toOption` agreement). -/
theorem c10_resolution_ignores_padding_and_prefix :
    (∀ (w : WireFormat) (n : NativeType) (tr : List Transform) (p1 p2 : Option Nat),
        get_write_method (.mk w n tr p1) = get_write_method (.mk w n tr p2) ∧
          get_read_method (.mk w n tr p1) = get_read_method (.mk w n tr p2)) ∧
    (∀ (n : NativeType) (tr : List Transform) (p1 p2 : Option Nat) (pw1 pw2 : Nat),
        (get_write_method (.mk (.lengthPrefixed pw1) n tr p1)).toOption =
            (get_write_method (.mk (.lengthPrefixed pw2) n tr p2)).toOption ∧
          (get_read_method (.mk (.lengthPrefixed pw1) n tr p1)).toOption =
            (get_read_method (.mk (.lengthPrefixed pw2) n tr p2)).toOption) := by
  constructor
  · intro w n tr p1 p2
    constructor <;> (cases n <;> cases w <;> rfl)
  · intro n tr p1 p2 pw1 pw2
    constructor <;> (cases n <;> rfl)

end Baproto
